import Mathlib

/-!
Shallow embedding of `src/app.py` (Streamlit product-catalog application):
the catalog data model, the temporal price/cost resolution queries, the
margin/coefficient metrics block, the Excel bulk-import (reconciliation)
loops, and the product-listing query.

Modelling conventions:
- uuids are modelled as `Nat` drawn from a fresh counter (uuid4 collisions
  are assumed not to happen, which is exactly the role freshness hypotheses
  play below);
- SQL `date` values are modelled as `Int` day numbers, `numeric` values as
  `Rat`;
- a pandas cell that may be NaN is modelled as an `Option`; a date cell is
  `DateCell` (`na` = NaN/NaT, `d t` = a real date, `bad` = an unparseable
  non-empty value on which `pd.to_datetime` raises);
- Python code that can raise is embedded in `Except String`.
-/

/-- A row of the `products` table (see `SCHEMA_SQL` in app.py). -/
structure Product where
  id : Nat
  sku : String
  name : String
  brand : Option String
  category : Option String
  status : String
  photo_url : Option String
deriving Repr, DecidableEq

/-- A row of the `stores` table. -/
structure Store where
  id : Nat
  code : String
  name : String
  sector_id : Option String
deriving Repr, DecidableEq

/-- A row of the `prices` table: `price numeric(10,2)`, `valid_from date not
null`, `valid_to date` (nullable). -/
structure PriceRecord where
  id : Nat
  product_id : Nat
  store_id : Option Nat
  price : Rat
  valid_from : Int
  valid_to : Option Int
deriving Repr, DecidableEq

/-- A row of the `costs` table. -/
structure CostRecord where
  id : Nat
  product_id : Nat
  cost : Rat
  valid_from : Int
  valid_to : Option Int
deriving Repr, DecidableEq

/-- The mutable database state of the application (the `photos` table plays
no role in the claims under study). -/
structure Catalog where
  products : List Product
  stores : List Store
  prices : List PriceRecord
  costs : List CostRecord
deriving Repr, DecidableEq

/-! ## Margin Calculator (app.py lines 266-282) -/

/-- The tri-level health badge: `good` = 🟢, `warning` = 🟠, `critical` = 🔴. -/
inductive Health where
  | good
  | warning
  | critical
deriving Repr, DecidableEq

/-- The metrics displayed on a product card when both a price and a cost
resolve. -/
structure Metrics where
  m_eur : Rat
  m_pct : Rat
  coeff : Rat
  badge : Health
deriving Repr, DecidableEq

/-- Python division: raises `ZeroDivisionError` on a zero divisor. -/
def pydiv (a b : Rat) : Except String Rat :=
  if b = 0 then .error "ZeroDivisionError" else .ok (a / b)

/-- The badge computed at line 273 of app.py:
`"🟢" if m_pct >= 20 else ("🟠" if m_pct >= 10 else "🔴")`.
Note that it is a function of the margin percentage only. -/
def marginBadge (m_pct : Rat) : Health :=
  if 20 ≤ m_pct then .good else if 10 ≤ m_pct then .warning else .critical

/-- Lines 270-273 of app.py:
`m_eur = pv - c`;
`m_pct = (m_eur / pv * 100) if pv else 0`;
`coeff = pv / c if c else 0`;
then the badge.  Python truthiness of a number means "nonzero", and each
division is evaluated only under its guard. -/
def computeMetrics (pv c : Rat) : Except String Metrics := do
  let m_eur := pv - c
  let m_pct ← if pv ≠ 0 then (do let q ← pydiv m_eur pv; pure (q * 100)) else pure 0
  let coeff ← if c ≠ 0 then pydiv pv c else pure 0
  pure ⟨m_eur, m_pct, coeff, marginBadge m_pct⟩

/-- Modelled from the spec (§4.2), for comparison with the source: the
spec's coefficient-health bands, "good" if `>= 1.30`, "warning" if
`>= 1.20`, else "critical".  `src/app.py` computes no coefficient-based
classification (its only badge is `marginBadge` above). -/
def specCoeffHealth (k : Rat) : Health :=
  if (13 : Rat)/10 ≤ k then .good else if (12 : Rat)/10 ≤ k then .warning else .critical

/-! ## Temporal Resolver (app.py lines 240-264)

The price query:
`select price from prices where product_id=:pid and valid_from <= :today
 and (valid_to is null or valid_to >= :today) [and store_id = :sid]
 order by valid_from desc limit 1`;
the cost query is identical without the store clause.  `order by ... desc
limit 1` picks a record of maximal `valid_from`; ties between equal
`valid_from` are left unspecified by SQL, so the embedding fixes one
deterministic representative (the first maximal record in table order). -/

/-- The WHERE clause of the price query.  `sf` is the optional store
filter: the `and store_id = :sid` conjunct is added only when a store row
matched the requested code. -/
def priceEligible (pid : Nat) (asOf : Int) (sf : Option Nat) (r : PriceRecord) : Bool :=
  r.product_id == pid && decide (r.valid_from ≤ asOf) &&
    (match r.valid_to with
     | none => true
     | some vt => decide (asOf ≤ vt)) &&
    (match sf with
     | none => true
     | some sid => r.store_id == some sid)

/-- The WHERE clause of the cost query (no store scope). -/
def costEligible (pid : Nat) (asOf : Int) (r : CostRecord) : Bool :=
  r.product_id == pid && decide (r.valid_from ≤ asOf) &&
    (match r.valid_to with
     | none => true
     | some vt => decide (asOf ≤ vt))

/-- `order by vf desc limit 1`: the first record of maximal `vf` in table
order (`none` on the empty result set). -/
def pickLatest {α : Type} (vf : α → Int) : List α → Option α
  | [] => none
  | r :: rs =>
    match pickLatest vf rs with
    | none => some r
    | some b => if vf r < vf b then some b else some r

/-- The full price-resolution query. -/
def resolvePrice (prices : List PriceRecord) (pid : Nat) (asOf : Int)
    (sf : Option Nat) : Option PriceRecord :=
  pickLatest (·.valid_from) (prices.filter (priceEligible pid asOf sf))

/-- The full cost-resolution query. -/
def resolveCost (costs : List CostRecord) (pid : Nat) (asOf : Int) :
    Option CostRecord :=
  pickLatest (·.valid_from) (costs.filter (costEligible pid asOf))

/-! ## Bulk Reconciler (app.py lines 313-412)

The admin import reads an Excel workbook and processes the sheets
`products`, `stores`, `prices`, `costs` when present.  Every `execute`
call runs in its own `engine.begin()` transaction (lines 144-146), so each
row commits independently; the whole loop sits in one `try/except` that
merely displays the first exception, leaving earlier rows committed. -/

/-- Python `str.strip()`. -/
def pyStrip (s : String) : String :=
  ⟨(((s.data.dropWhile Char.isWhitespace).reverse).dropWhile Char.isWhitespace).reverse⟩

/-- A date-typed spreadsheet cell: missing (NaN/NaT), an actual date, or a
non-empty unparseable value on which `pd.to_datetime` raises. -/
inductive DateCell where
  | na
  | d (t : Int)
  | bad
deriving Repr, DecidableEq

/-- `dropna` keeps a cell iff it is not missing. -/
def DateCell.present : DateCell → Bool
  | .na => false
  | _ => true

/-- `pd.to_datetime(cell).date()` on a required date column (called only on
cells `dropna` kept). -/
def parseDateCell : DateCell → Except String Int
  | .d t => .ok t
  | _ => .error "DateParseError"

/-- `pd.to_datetime(r.get("valid_to")).date() if str(r.get("valid_to",""))
else None`: after `fillna("")` a missing cell is `""`, which is falsy, so
it yields SQL null; a real date parses; garbage raises. -/
def parseValidTo : DateCell → Except String (Option Int)
  | .na => .ok none
  | .d t => .ok (some t)
  | .bad => .error "DateParseError"

/-- A row of the `products` sheet after `fillna("")` (missing text cells
become `""`).  `photo_url = none` models the column being absent from the
sheet (`has_url = "photo_url" in df.columns`). -/
structure ProductRow where
  sku : String
  name : String
  brand : String
  category : String
  status : String
  photo_url : Option String
deriving Repr, DecidableEq

/-- A row of the `stores` sheet after `fillna("")`. -/
structure StoreRow where
  code : String
  name : String
  sector_id : String
deriving Repr, DecidableEq

/-- A row of the `prices` sheet.  `none` on `sku`/`store_code`/`price`
models a NaN cell (or, for `store_code`, an absent column: `r.get` then
defaults to `""`, which coincides with the `fillna` result). -/
structure PriceRow where
  sku : Option String
  store_code : Option String
  price : Option Rat
  valid_from : DateCell
  valid_to : DateCell
deriving Repr, DecidableEq

/-- A row of the `costs` sheet. -/
structure CostRow where
  sku : Option String
  cost : Option Rat
  valid_from : DateCell
  valid_to : DateCell
deriving Repr, DecidableEq

/-- `get_product_id`: `select id from products where sku=:sku limit 1`. -/
def getProductId (ps : List Product) (sku : String) : Option Nat :=
  (ps.find? (fun p => p.sku == sku)).map (·.id)

/-- `get_store_id`: `select id from stores where code=:code limit 1`. -/
def getStoreId (ss : List Store) (code : String) : Option Nat :=
  (ss.find? (fun s => s.code == code)).map (·.id)

/-- The parameter row bound by `upsert_products` for one sheet row:
`sku`/`name` stripped, empty `brand`/`category` become SQL null
(`r.get(...) or None`), empty `status` becomes `'active'`
(`r.get("status") or "active"`, and `coalesce(:status,'active')`), and
`photo_url` is the stripped value when the column exists and the stripped
value is non-empty, else SQL null. -/
def prodRecord (nid : Nat) (r : ProductRow) : Product :=
  { id := nid
    sku := pyStrip r.sku
    name := pyStrip r.name
    brand := if r.brand = "" then none else some r.brand
    category := if r.category = "" then none else some r.category
    status := if r.status = "" then "active" else r.status
    photo_url :=
      match r.photo_url with
      | none => none
      | some u => if pyStrip u = "" then none else some (pyStrip u) }

/-- The `insert ... on conflict (sku) do update` statement of
`upsert_products`: if a row with the incoming `sku` exists it is updated
in place (`name`, `brand`, `category`, `status` from the incoming row,
`photo_url = coalesce(excluded.photo_url, products.photo_url)`); otherwise
the incoming row is inserted. -/
def pgUpsertProduct (tbl : List Product) (rec : Product) : List Product :=
  if tbl.any (fun p => p.sku == rec.sku) then
    tbl.map (fun p =>
      if p.sku == rec.sku then
        { p with
          name := rec.name
          brand := rec.brand
          category := rec.category
          status := rec.status
          photo_url :=
            match rec.photo_url with
            | some u => some u
            | none => p.photo_url }
      else p)
  else tbl ++ [rec]

/-- `upsert_products`: one upsert per sheet row, a fresh uuid generated for
each row. -/
def importProducts (tbl : List Product) (n : Nat) : List ProductRow → List Product × Nat
  | [] => (tbl, n)
  | r :: rs => importProducts (pgUpsertProduct tbl (prodRecord n r)) (n + 1) rs

/-- The `insert ... on conflict (code) do update` statement of
`upsert_stores`. -/
def pgUpsertStore (tbl : List Store) (rec : Store) : List Store :=
  if tbl.any (fun s => s.code == rec.code) then
    tbl.map (fun s =>
      if s.code == rec.code then
        { s with name := rec.name, sector_id := rec.sector_id }
      else s)
  else tbl ++ [rec]

/-- The parameter row bound by `upsert_stores`. -/
def storeRecord (nid : Nat) (r : StoreRow) : Store :=
  { id := nid
    code := pyStrip r.code
    name := pyStrip r.name
    sector_id := if r.sector_id = "" then none else some r.sector_id }

/-- `upsert_stores`. -/
def importStores (tbl : List Store) (n : Nat) : List StoreRow → List Store × Nat
  | [] => (tbl, n)
  | r :: rs => importStores (pgUpsertStore tbl (storeRecord n r)) (n + 1) rs

/-- `insert into prices ... on conflict do nothing`.  Per `SCHEMA_SQL` the
only unique constraint on `prices` is the primary key `id`, so the
targetless ON CONFLICT clause can only fire on an `id` collision. -/
def pgInsertPrice (tbl : List PriceRecord) (rec : PriceRecord) : List PriceRecord :=
  if tbl.any (fun r => r.id == rec.id) then tbl else tbl ++ [rec]

/-- `insert into costs ... on conflict do nothing` (same situation: the
only unique constraint on `costs` is the primary key `id`). -/
def pgInsertCost (tbl : List CostRecord) (rec : CostRecord) : List CostRecord :=
  if tbl.any (fun r => r.id == rec.id) then tbl else tbl ++ [rec]

/-- `dropna(subset=["sku", "price", "valid_from"])` on the `prices` sheet. -/
def priceRowKept (r : PriceRow) : Bool :=
  r.sku.isSome && r.price.isSome && r.valid_from.present

/-- `dropna(subset=["sku", "cost", "valid_from"])` on the `costs` sheet. -/
def costRowKept (r : CostRow) : Bool :=
  r.sku.isSome && r.cost.isSome && r.valid_from.present

/-- `str(r["sku"]).strip()` (after `fillna("")`). -/
def PriceRow.skuKey (r : PriceRow) : String := pyStrip (r.sku.getD "")

/-- `get_store_id(str(r.get("store_code","")).strip()) if
r.get("store_code","") else None`. -/
def PriceRow.storeIdOf (stores : List Store) (r : PriceRow) : Option Nat :=
  if r.store_code.getD "" ≠ "" then getStoreId stores (pyStrip (r.store_code.getD "")) else none

/-- `str(r["sku"]).strip()` for a cost row. -/
def CostRow.skuKey (r : CostRow) : String := pyStrip (r.sku.getD "")

/-- The per-row body of the `prices` loop over the rows `dropna` kept:
resolve the sku (`if not pid: continue` drops the row), then build the
bound parameters — parsing `valid_from`/`valid_to` can raise, which aborts
the rest of the loop — and run the insert in its own transaction.  The
state reached so far is kept on an exception (each `execute` has already
committed). -/
def goPrices (s : Catalog) (n : Nat) : List PriceRow → (Catalog × Nat) × Option String
  | [] => ((s, n), none)
  | r :: rs =>
    match getProductId s.products r.skuKey with
    | none => goPrices s n rs
    | some pid =>
      match parseDateCell r.valid_from with
      | .error e => ((s, n), some e)
      | .ok vf =>
        match parseValidTo r.valid_to with
        | .error e => ((s, n), some e)
        | .ok vt =>
          let np : PriceRecord := ⟨n, pid, PriceRow.storeIdOf s.stores r, r.price.getD 0, vf, vt⟩
          goPrices { s with prices := pgInsertPrice s.prices np } (n + 1) rs

/-- The `prices` sheet import: `dropna`, then the per-row loop. -/
def importPrices (s : Catalog) (n : Nat) (rows : List PriceRow) :
    (Catalog × Nat) × Option String :=
  goPrices s n (rows.filter priceRowKept)

/-- The per-row body of the `costs` loop (no store scope). -/
def goCosts (s : Catalog) (n : Nat) : List CostRow → (Catalog × Nat) × Option String
  | [] => ((s, n), none)
  | r :: rs =>
    match getProductId s.products r.skuKey with
    | none => goCosts s n rs
    | some pid =>
      match parseDateCell r.valid_from with
      | .error e => ((s, n), some e)
      | .ok vf =>
        match parseValidTo r.valid_to with
        | .error e => ((s, n), some e)
        | .ok vt =>
          let nc : CostRecord := ⟨n, pid, r.cost.getD 0, vf, vt⟩
          goCosts { s with costs := pgInsertCost s.costs nc } (n + 1) rs

/-- The `costs` sheet import. -/
def importCosts (s : Catalog) (n : Nat) (rows : List CostRow) :
    (Catalog × Nat) × Option String :=
  goCosts s n (rows.filter costRowKept)

/-! ## Workbook dispatch (app.py lines 364-408)

`if "products" in wb.sheet_names: ...` etc.: each of the four known sheets
is processed when present and silently skipped when absent.  No other
sheet name is consulted. -/

/-- A row of the spec's *simplified layout* (§6 (b)): a sheet named
`catalogue` with columns `sku,name,category,cost,price,photo_url`. -/
structure CatalogueRow where
  sku : String
  name : String
  category : String
  cost : Option Rat
  price : Option Rat
  photo_url : Option String
deriving Repr, DecidableEq

/-- An uploaded workbook: a sheet is `some rows` when present.  The
`catalogue` field records a sheet of that name so that its (non-)handling
can be stated. -/
structure Workbook where
  products : Option (List ProductRow)
  stores : Option (List StoreRow)
  prices : Option (List PriceRow)
  costs : Option (List CostRow)
  catalogue : Option (List CatalogueRow)
deriving Repr, DecidableEq

/-- `if "products" in wb.sheet_names: upsert_products(...)`. -/
def importProductsSheet (s : Catalog) (n : Nat) (sheet : Option (List ProductRow)) :
    Catalog × Nat :=
  match sheet with
  | none => (s, n)
  | some rows =>
    let tn := importProducts s.products n rows
    ({ s with products := tn.1 }, tn.2)

/-- `if "stores" in wb.sheet_names: upsert_stores(...)`. -/
def importStoresSheet (s : Catalog) (n : Nat) (sheet : Option (List StoreRow)) :
    Catalog × Nat :=
  match sheet with
  | none => (s, n)
  | some rows =>
    let tn := importStores s.stores n rows
    ({ s with stores := tn.1 }, tn.2)

/-- `if "prices" in wb.sheet_names: ...`, short-circuited when an earlier
sheet already raised. -/
def importPricesSheet (sn : (Catalog × Nat) × Option String)
    (sheet : Option (List PriceRow)) : (Catalog × Nat) × Option String :=
  match sn with
  | ((s, n), none) =>
    match sheet with
    | none => ((s, n), none)
    | some rows => importPrices s n rows
  | e => e

/-- `if "costs" in wb.sheet_names: ...`, short-circuited on an earlier
exception. -/
def importCostsSheet (sn : (Catalog × Nat) × Option String)
    (sheet : Option (List CostRow)) : (Catalog × Nat) × Option String :=
  match sn with
  | ((s, n), none) =>
    match sheet with
    | none => ((s, n), none)
    | some rows => importCosts s n rows
  | e => e

/-- The whole import handler (lines 364-408): products, then stores, then
prices, then costs; the first exception aborts the remainder but keeps the
state already committed.  The `catalogue` sheet is never consulted. -/
def importWorkbook (s : Catalog) (n : Nat) (wb : Workbook) :
    (Catalog × Nat) × Option String :=
  let sn1 := importProductsSheet s n wb.products
  let sn2 := importStoresSheet sn1.1 sn1.2 wb.stores
  importCostsSheet (importPricesSheet ((sn2.1, sn2.2), none) wb.prices) wb.costs

/-! ## Listing query (app.py lines 181-204)

`select id, sku, name, brand, category from products where (:q = '' or
lower(name) like lower('%'||:q||'%') or lower(sku) like ...) [and category
in (...)] order by name asc limit 500`, executed through `fetch_all`
(lines 139-142), which opens a connection and runs the query on every
call. -/

/-- `lower(...)`, character by character. -/
def lowerData (s : String) : List Char := s.data.map Char.toLower

/-- Auxiliary: does the pattern start the text? -/
def startsWithList : List Char → List Char → Bool
  | [], _ => true
  | _ :: _, [] => false
  | a :: as, b :: bs => a == b && startsWithList as bs

/-- `like '%' || pat || '%'` on lowered character lists: the pattern occurs
somewhere in the text. -/
def hasInfixList (needle : List Char) : List Char → Bool
  | [] => needle.isEmpty
  | c :: t => startsWithList needle (c :: t) || hasInfixList needle t

/-- `lower(hay) like lower('%' || q || '%')`. -/
def sqlLike (hay q : String) : Bool := hasInfixList (lowerData q) (lowerData hay)

/-- The dynamically-built WHERE clause: free-text match on name or sku
(vacuous for the empty search string), plus `category in (...)` only when
some categories are selected (a SQL `IN` never matches a null category). -/
def matchesWhere (q : String) (cats : List String) (p : Product) : Bool :=
  (q == "" || sqlLike p.name q || sqlLike p.sku q) &&
    (cats.isEmpty ||
      (match p.category with
       | some c => cats.contains c
       | none => false))

/-- Lexicographic comparison on character data (`order by name asc`). -/
def strLeAux : List Char → List Char → Bool
  | [], _ => true
  | _ :: _, [] => false
  | a :: as, b :: bs => if a = b then strLeAux as bs else decide (a.toNat < b.toNat)

/-- The listing query: filter, sort by name, `limit 500`.  It is a pure
function of the current database contents — `fetch_all` keeps no cache and
takes no clock. -/
def listing (db : List Product) (q : String) (cats : List String) : List Product :=
  (List.insertionSort (fun a b => strLeAux a.name.data b.name.data = true)
    (db.filter (matchesWhere q cats))).take 500

/-- Modelled from the spec (§4.4 Query Cache), for comparison with the
source's `listing`: a cache entry `(t0, rows)` inserted at `t0` serves
`rows` as long as `now < t0 + 60`; otherwise the fresh database rows are
served and cached. -/
def specCacheServe (entry : Option (Int × List Product)) (now : Int)
    (fresh : List Product) : List Product × (Int × List Product) :=
  match entry with
  | some (t0, rows) => if now < t0 + 60 then (rows, (t0, rows)) else (fresh, (now, fresh))
  | none => (fresh, (now, fresh))

/-! ## Concrete sample inputs used by counterexamples and witnesses -/

/-- The §8 scenario table: price 12.00 on window [day 0, day 180], price
14.00 open-ended from day 181. -/
def samplePrices : List PriceRecord :=
  [⟨100, 1, none, 12, 0, some 180⟩, ⟨101, 1, none, 14, 181, none⟩]

/-- A catalog holding the single product `P1`. -/
def c1Catalog : Catalog :=
  ⟨[⟨1, "P1", "Widget", none, none, "active", none⟩], [], [], []⟩

/-- A one-row `prices` sheet: sku `P1`, price 10, valid from day 0,
open-ended. -/
def c1Batch : List PriceRow :=
  [⟨some "P1", none, some 10, .d 0, .na⟩]

/-- The empty catalog. -/
def emptyCatalog : Catalog := ⟨[], [], [], []⟩

/-- A workbook whose only sheet is a one-row `catalogue` sheet
(spec §6 layout (b)). -/
def wbCatalogueOnly : Workbook :=
  ⟨none, none, none, none, some [⟨"SKU-1", "Widget", "cat", some 5, some 10, none⟩]⟩

/-- A products-sheet row whose `sku` cell was blank: after `fillna("")`
the sku is the empty string. -/
def c10Row : ProductRow := ⟨"", "Widget", "", "", "", none⟩

/-- Listing sample products. -/
def pAlpha : Product := ⟨1, "A1", "alpha", none, none, "active", none⟩

def pBeta : Product := ⟨2, "B1", "beta", none, none, "active", none⟩

/-- A `prices` sheet mixing a row with a missing sku, a row with an
unresolvable sku, and a valid row. -/
def c7PriceRows : List PriceRow :=
  [⟨none, none, some 5, .d 0, .na⟩,
   ⟨some "ZZ", none, some 6, .d 0, .na⟩,
   ⟨some "P1", none, some 7, .d 10, .d 20⟩]

/-- A `costs` sheet mixing a row with a missing cost value and a valid
row. -/
def c7CostRows : List CostRow :=
  [⟨some "P1", none, .d 0, .na⟩,
   ⟨some "P1", some 3, .d 5, .na⟩]

/-- A valid price row applied before the failing row. -/
def c9Pre : List PriceRow := [⟨some "P1", none, some 5, .d 0, .na⟩]

/-- A price row whose `valid_from` cell holds an unparseable value:
`pd.to_datetime` raises on it. -/
def c9Bad : PriceRow := ⟨some "P1", none, some 6, .bad, .na⟩

/-- A valid price row that sits after the failing row in the sheet. -/
def c9Post : List PriceRow := [⟨some "P1", none, some 7, .d 2, .na⟩]

/-- The catalog state after `c9Pre` has been applied to `c1Catalog` with
fresh ids from 90. -/
def c9Mid : Catalog :=
  ⟨[⟨1, "P1", "Widget", none, none, "active", none⟩], [],
    [⟨90, 1, none, 5, 0, none⟩], []⟩

/-- A pre-existing product row for the merge-policy witness. -/
def c8Old : Product := ⟨1, "P1", "Old", some "B", some "C", "old", some "http://old"⟩

/-- An existing products table for the merge-policy witness. -/
def c8Table : List Product := [c8Old]

/-- An incoming products-sheet row with the same sku and no photo_url
column. -/
def c8Row : ProductRow := ⟨"P1", "New", "", "NewCat", "", none⟩

/-- A cell holds an actual date. -/
def DateCell.isDate : DateCell → Bool
  | .d _ => true
  | _ => false

/-- A cell on which `pd.to_datetime` raises. -/
def DateCell.isBad : DateCell → Bool
  | .bad => true
  | _ => false

/-- The date a cell denotes (0 as a don't-care for non-dates; only used on
parse-clean rows). -/
def DateCell.dateOf : DateCell → Int
  | .d t => t
  | _ => 0

/-- The optional date a cell denotes for `valid_to`. -/
def DateCell.vtOf : DateCell → Option Int
  | .d t => some t
  | _ => none

/-- A price row whose date cells parse without raising: `valid_from` is an
actual date and `valid_to` is either missing or an actual date. -/
def priceRowParses (r : PriceRow) : Bool :=
  r.valid_from.isDate && !r.valid_to.isBad

/-- A cost row whose date cells parse without raising. -/
def costRowParses (r : CostRow) : Bool :=
  r.valid_from.isDate && !r.valid_to.isBad

/-- The price records that a list of (already `dropna`-kept) price rows
denotes, in sheet order, skipping rows whose sku resolves to no product:
the filter-then-map shape the spec describes. -/
def pricesApplied (prods : List Product) (stores : List Store) (n : Nat) :
    List PriceRow → List PriceRecord
  | [] => []
  | r :: rs =>
    match getProductId prods r.skuKey with
    | some pid =>
      ⟨n, pid, PriceRow.storeIdOf stores r, r.price.getD 0,
        r.valid_from.dateOf, r.valid_to.vtOf⟩ :: pricesApplied prods stores (n + 1) rs
    | none => pricesApplied prods stores n rs

/-- The cost records that a list of kept cost rows denotes. -/
def costsApplied (prods : List Product) (n : Nat) : List CostRow → List CostRecord
  | [] => []
  | r :: rs =>
    match getProductId prods r.skuKey with
    | some pid =>
      ⟨n, pid, r.cost.getD 0, r.valid_from.dateOf, r.valid_to.vtOf⟩ ::
        costsApplied prods (n + 1) rs
    | none => costsApplied prods n rs

/-! ## Theorems -/

/-- Shared evaluation lemma: the metrics block never raises and computes
the guarded formulas. -/
theorem computeMetrics_formula (pv c : Rat) :
    computeMetrics pv c =
      .ok ⟨pv - c,
           if pv ≠ 0 then (pv - c) / pv * 100 else 0,
           if c ≠ 0 then pv / c else 0,
           marginBadge (if pv ≠ 0 then (pv - c) / pv * 100 else 0)⟩ := by
  by_cases hp : pv = 0 <;> by_cases hc : c = 0 <;>
    simp [computeMetrics, pydiv, hp, hc, Bind.bind, Except.bind, pure, Except.pure]

/-- C4: For every price and cost input, the metrics computation is total:
it returns `ok` (never a `ZeroDivisionError`), with
`margin_pct = (price - cost) / price * 100` when `price ≠ 0` and `0` when
`price = 0`, and `coefficient = price / cost` when `cost ≠ 0` and `0` when
`cost = 0`. -/
theorem C4_metrics_total (pv c : Rat) :
    computeMetrics pv c =
      .ok ⟨pv - c,
           if pv ≠ 0 then (pv - c) / pv * 100 else 0,
           if c ≠ 0 then pv / c else 0,
           marginBadge (if pv ≠ 0 then (pv - c) / pv * 100 else 0)⟩ :=
  computeMetrics_formula pv c

/-- C3 counterexample: at price 10 and cost 0 the code returns coefficient 0,
but the health classification it computes is the margin badge, which at
`m_pct = 100` is `good` (🟢) — not the non-good classification the claim
asserts. -/
theorem C3_counterexample :
    computeMetrics 10 0 = .ok ⟨10, 100, 0, Health.good⟩ := by
  rw [computeMetrics_formula]
  norm_num [marginBadge]

/-- C3 amended: for every price > 0 paired with cost = 0, the metrics
computation returns coefficient 0 without raising; the code's health
classification is computed from `margin_pct` (= 100 here), so the badge is
`good`; the spec's coefficient-health bands (not implemented in the code)
would classify the 0 coefficient as `critical`. -/
theorem C3_zero_cost_badge (pv : Rat) (hpv : 0 < pv) :
    computeMetrics pv 0 = .ok ⟨pv, 100, 0, Health.good⟩ ∧
      specCoeffHealth 0 = Health.critical := by
  constructor
  · rw [computeMetrics_formula]
    have hne : pv ≠ 0 := ne_of_gt hpv
    have h100 : (pv - 0) / pv * 100 = 100 := by
      field_simp
    simp [hne, h100, marginBadge]
    norm_num
  · norm_num [specCoeffHealth]

/-- Witness for `C3_zero_cost_badge` at price 10. -/
theorem C3_zero_cost_badge_witness :
    computeMetrics 10 0 = .ok ⟨10, 100, 0, Health.good⟩ ∧
      specCoeffHealth 0 = Health.critical :=
  C3_zero_cost_badge 10 (by norm_num)

theorem pickLatest_eq_none {α : Type} (vf : α → Int) (l : List α) :
    pickLatest vf l = none ↔ l = [] := by
  induction l with
  | nil => simp [pickLatest]
  | cons r rs ih =>
    simp only [pickLatest]
    cases h : pickLatest vf rs with
    | none => simp
    | some b => by_cases h2 : vf r < vf b <;> simp [h2]

theorem pickLatest_mem {α : Type} (vf : α → Int) (l : List α) (r : α)
    (h : pickLatest vf l = some r) : r ∈ l := by
  induction l generalizing r with
  | nil => simp [pickLatest] at h
  | cons a as ih =>
    simp only [pickLatest] at h
    cases hrec : pickLatest vf as with
    | none => rw [hrec] at h; simp at h; simp [h]
    | some b =>
      rw [hrec] at h
      by_cases hlt : vf a < vf b
      · simp [hlt] at h; subst h; exact List.mem_cons_of_mem _ (ih b hrec)
      · simp [hlt] at h; simp [h]

theorem pickLatest_max {α : Type} (vf : α → Int) (l : List α) (r : α)
    (h : pickLatest vf l = some r) : ∀ s ∈ l, vf s ≤ vf r := by
  induction l generalizing r with
  | nil => simp
  | cons a as ih =>
    simp only [pickLatest] at h
    intro s hs
    cases hrec : pickLatest vf as with
    | none =>
      rw [hrec] at h; simp at h; subst h
      rcases List.mem_cons.mp hs with h1 | h1
      · subst h1; exact le_refl _
      · exact absurd ((pickLatest_eq_none vf as).mp hrec ▸ h1) (List.not_mem_nil s)
    | some b =>
      rw [hrec] at h
      by_cases hlt : vf a < vf b
      · simp [hlt] at h; subst h
        rcases List.mem_cons.mp hs with h1 | h1
        · subst h1; exact le_of_lt hlt
        · exact ih b hrec s h1
      · simp [hlt] at h; subst h
        rcases List.mem_cons.mp hs with h1 | h1
        · subst h1; exact le_refl _
        · exact le_trans (ih b hrec s h1) (not_lt.mp hlt)

/-- C2: for every product and as-of date, price resolution and cost
resolution consider exactly the records passing the validity-window test
(`valid_from <= as_of` and (`valid_to` null or `>= as_of`)): the result is
`none` iff no record is eligible (a normal outcome, not an error), and any
returned record is an eligible record of the table whose `valid_from` is
greatest among all eligible records. -/
theorem C2_resolution (prices : List PriceRecord) (costs : List CostRecord)
    (pid : Nat) (asOf : Int) (sf : Option Nat) :
    (resolvePrice prices pid asOf sf = none ↔
       ∀ r ∈ prices, ¬priceEligible pid asOf sf r = true) ∧
    (∀ r, resolvePrice prices pid asOf sf = some r →
       r ∈ prices ∧ priceEligible pid asOf sf r = true ∧
         ∀ s ∈ prices, priceEligible pid asOf sf s = true →
           s.valid_from ≤ r.valid_from) ∧
    (resolveCost costs pid asOf = none ↔
       ∀ r ∈ costs, ¬costEligible pid asOf r = true) ∧
    (∀ r, resolveCost costs pid asOf = some r →
       r ∈ costs ∧ costEligible pid asOf r = true ∧
         ∀ s ∈ costs, costEligible pid asOf s = true →
           s.valid_from ≤ r.valid_from) := by
  refine ⟨?_, ?_, ?_, ?_⟩
  · rw [resolvePrice, pickLatest_eq_none, List.filter_eq_nil_iff]
  · intro r h
    have hmem := pickLatest_mem _ _ _ h
    have hmax := pickLatest_max _ _ _ h
    rcases List.mem_filter.mp hmem with ⟨h1, h2⟩
    exact ⟨h1, h2, fun s hs hse => hmax s (List.mem_filter.mpr ⟨hs, hse⟩)⟩
  · rw [resolveCost, pickLatest_eq_none, List.filter_eq_nil_iff]
  · intro r h
    have hmem := pickLatest_mem _ _ _ h
    have hmax := pickLatest_max _ _ _ h
    rcases List.mem_filter.mp hmem with ⟨h1, h2⟩
    exact ⟨h1, h2, fun s hs hse => hmax s (List.mem_filter.mpr ⟨hs, hse⟩)⟩

/-- Witness for `C2_resolution`: on `samplePrices` at as-of day 200, the
resolver returns the open-ended record, which is eligible and of maximal
`valid_from`. -/
theorem C2_resolution_witness :
    (⟨101, 1, none, 14, 181, none⟩ : PriceRecord) ∈ samplePrices ∧
      priceEligible 1 200 none ⟨101, 1, none, 14, 181, none⟩ = true :=
  ⟨((C2_resolution samplePrices [] 1 200 none).2.1 _ rfl).1,
   ((C2_resolution samplePrices [] 1 200 none).2.1 _ rfl).2.1⟩

/-- C1 (failing run): re-importing the unchanged one-row price batch
`c1Batch` into `c1Catalog`.  After the first run the catalog holds exactly
one price record for product 1 (store null, price 10, window [0, null]).
The second run inserts a second record with identical product, store,
value and validity window: the targetless `on conflict do nothing` can
only fire on the uuid primary key (the only unique constraint of
`prices`), and the id is freshly generated, so the state after the second
run differs from the state after the first — the import is not
idempotent. -/
theorem C1_second_run_duplicates :
    ((importPrices c1Catalog 10 c1Batch).1.1.prices.map
        (fun p => (p.product_id, p.store_id, p.price, p.valid_from, p.valid_to))
      = [(1, none, 10, 0, none)]) ∧
    ((importPrices (importPrices c1Catalog 10 c1Batch).1.1
        (importPrices c1Catalog 10 c1Batch).1.2 c1Batch).1.1.prices.map
        (fun p => (p.product_id, p.store_id, p.price, p.valid_from, p.valid_to))
      = [(1, none, 10, 0, none), (1, none, 10, 0, none)]) :=
  ⟨rfl, rfl⟩

/-- C6 counterexample: a workbook whose single sheet is a one-row
`catalogue` sheet imports nothing — the catalog is unchanged (in
particular no product `SKU-1` is created), so the simplified layout is not
supported. -/
theorem C6_counterexample :
    importWorkbook emptyCatalog 0 wbCatalogueOnly = ((emptyCatalog, 0), none) ∧
      (importWorkbook emptyCatalog 0 wbCatalogueOnly).1.1.products = [] :=
  ⟨rfl, rfl⟩

/-- C6 amended: the import processes exactly the sheets named `products`,
`stores`, `prices`, `costs` that are present — a present sheet is handed
to its upsert loop, an absent sheet is silently skipped — and a sheet
named `catalogue` is ignored entirely (the import result never depends on
it). -/
theorem C6_sheet_dispatch (s : Catalog) (n : Nat) (wb : Workbook) :
    importWorkbook s n wb = importWorkbook s n { wb with catalogue := none } ∧
    importWorkbook s n ⟨none, none, none, none, wb.catalogue⟩ = ((s, n), none) ∧
    importWorkbook s n { wb with stores := none, prices := none, costs := none } =
      (((importProductsSheet s n wb.products).1,
        (importProductsSheet s n wb.products).2), none) :=
  ⟨rfl, rfl, rfl⟩

theorem pgInsertPrice_fresh (tbl : List PriceRecord) (rec : PriceRecord)
    (h : ∀ p ∈ tbl, p.id ≠ rec.id) : pgInsertPrice tbl rec = tbl ++ [rec] := by
  rw [pgInsertPrice, if_neg]
  intro hc
  rcases List.any_eq_true.mp hc with ⟨x, hx, hbeq⟩
  exact h x hx (by simpa using hbeq)

theorem pgInsertCost_fresh (tbl : List CostRecord) (rec : CostRecord)
    (h : ∀ p ∈ tbl, p.id ≠ rec.id) : pgInsertCost tbl rec = tbl ++ [rec] := by
  rw [pgInsertCost, if_neg]
  intro hc
  rcases List.any_eq_true.mp hc with ⟨x, hx, hbeq⟩
  exact h x hx (by simpa using hbeq)


/-- On a batch of kept rows that are parse-clean wherever their sku
resolves, the prices loop equals the filter-then-map shape: unresolvable
rows are skipped, every other row appends its record, and no exception is
raised. -/
theorem goPrices_clean (l : List PriceRow) : ∀ (s : Catalog) (n : Nat),
    (∀ p ∈ s.prices, p.id < n) →
    (∀ r ∈ l, (getProductId s.products r.skuKey).isSome = true →
      priceRowParses r = true) →
    goPrices s n l =
      (({ s with prices := s.prices ++ pricesApplied s.products s.stores n l },
        n + (pricesApplied s.products s.stores n l).length), none) := by
  induction l with
  | nil => intro s n _ _; simp [goPrices, pricesApplied]
  | cons r rs ih =>
    intro s n hfresh hrows
    cases hpid : getProductId s.products r.skuKey with
    | none =>
      have hrec := ih s n hfresh (fun x hx hkx => hrows x (List.mem_cons_of_mem _ hx) hkx)
      simp only [goPrices, hpid, pricesApplied]
      exact hrec
    | some pid =>
      have hparse : priceRowParses r = true :=
        hrows r (List.mem_cons_self _ _) (by rw [hpid]; rfl)
      rw [priceRowParses, Bool.and_eq_true] at hparse
      have hvtok : parseValidTo r.valid_to = .ok r.valid_to.vtOf := by
        cases hvt : r.valid_to with
        | na => rfl
        | d u => rfl
        | bad => rw [hvt] at hparse; simp [DateCell.isBad] at hparse
      cases hvf : r.valid_from with
      | na => rw [hvf] at hparse; simp [DateCell.isDate] at hparse
      | bad => rw [hvf] at hparse; simp [DateCell.isDate] at hparse
      | d t =>
        have hins : pgInsertPrice s.prices
            ⟨n, pid, PriceRow.storeIdOf s.stores r, r.price.getD 0, t, r.valid_to.vtOf⟩
            = s.prices ++ [⟨n, pid, PriceRow.storeIdOf s.stores r, r.price.getD 0, t,
                r.valid_to.vtOf⟩] :=
          pgInsertPrice_fresh _ _ (fun p hp => Nat.ne_of_lt (hfresh p hp))
        have hfresh2 : ∀ p ∈ s.prices ++
            [(⟨n, pid, PriceRow.storeIdOf s.stores r, r.price.getD 0, t,
                r.valid_to.vtOf⟩ : PriceRecord)], p.id < n + 1 := by
          intro p hp
          rcases List.mem_append.mp hp with hp1 | hp1
          · exact Nat.lt_trans (hfresh p hp1) (Nat.lt_succ_self n)
          · rcases List.mem_singleton.mp hp1 with rfl
            exact Nat.lt_succ_self n
        have hrows2 : ∀ x ∈ rs, (getProductId s.products x.skuKey).isSome = true →
            priceRowParses x = true :=
          fun x hx hkx => hrows x (List.mem_cons_of_mem _ hx) hkx
        have step := ih ⟨s.products, s.stores, s.prices ++
            [({ id := n, product_id := pid, store_id := PriceRow.storeIdOf s.stores r,
                price := r.price.getD 0, valid_from := t,
                valid_to := r.valid_to.vtOf } : PriceRecord)], s.costs⟩
          (n + 1) hfresh2 hrows2
        simp only [goPrices, hpid, hvf, parseDateCell, hvtok]
        rw [hins]
        refine step.trans ?_
        simp [pricesApplied, hpid, hvf, DateCell.dateOf, List.append_assoc,
          Nat.add_assoc, Nat.add_comm, Nat.add_left_comm]

/-- The costs-loop analogue of `goPrices_clean`. -/
theorem goCosts_clean (l : List CostRow) : ∀ (s : Catalog) (n : Nat),
    (∀ c ∈ s.costs, c.id < n) →
    (∀ r ∈ l, (getProductId s.products r.skuKey).isSome = true →
      costRowParses r = true) →
    goCosts s n l =
      (({ s with costs := s.costs ++ costsApplied s.products n l },
        n + (costsApplied s.products n l).length), none) := by
  induction l with
  | nil => intro s n _ _; simp [goCosts, costsApplied]
  | cons r rs ih =>
    intro s n hfresh hrows
    cases hpid : getProductId s.products r.skuKey with
    | none =>
      have hrec := ih s n hfresh (fun x hx hkx => hrows x (List.mem_cons_of_mem _ hx) hkx)
      simp only [goCosts, hpid, costsApplied]
      exact hrec
    | some pid =>
      have hparse : costRowParses r = true :=
        hrows r (List.mem_cons_self _ _) (by rw [hpid]; rfl)
      rw [costRowParses, Bool.and_eq_true] at hparse
      have hvtok : parseValidTo r.valid_to = .ok r.valid_to.vtOf := by
        cases hvt : r.valid_to with
        | na => rfl
        | d u => rfl
        | bad => rw [hvt] at hparse; simp [DateCell.isBad] at hparse
      cases hvf : r.valid_from with
      | na => rw [hvf] at hparse; simp [DateCell.isDate] at hparse
      | bad => rw [hvf] at hparse; simp [DateCell.isDate] at hparse
      | d t =>
        have hins : pgInsertCost s.costs
            ⟨n, pid, r.cost.getD 0, t, r.valid_to.vtOf⟩
            = s.costs ++ [⟨n, pid, r.cost.getD 0, t, r.valid_to.vtOf⟩] :=
          pgInsertCost_fresh _ _ (fun p hp => Nat.ne_of_lt (hfresh p hp))
        have hfresh2 : ∀ c ∈ s.costs ++
            [(⟨n, pid, r.cost.getD 0, t, r.valid_to.vtOf⟩ : CostRecord)], c.id < n + 1 := by
          intro c hc
          rcases List.mem_append.mp hc with hc1 | hc1
          · exact Nat.lt_trans (hfresh c hc1) (Nat.lt_succ_self n)
          · rcases List.mem_singleton.mp hc1 with rfl
            exact Nat.lt_succ_self n
        have hrows2 : ∀ x ∈ rs, (getProductId s.products x.skuKey).isSome = true →
            costRowParses x = true :=
          fun x hx hkx => hrows x (List.mem_cons_of_mem _ hx) hkx
        have step := ih ⟨s.products, s.stores, s.prices, s.costs ++
            [({ id := n, product_id := pid, cost := r.cost.getD 0, valid_from := t,
                valid_to := r.valid_to.vtOf } : CostRecord)]⟩
          (n + 1) hfresh2 hrows2
        simp only [goCosts, hpid, hvf, parseDateCell, hvtok]
        rw [hins]
        refine step.trans ?_
        simp [costsApplied, hpid, hvf, DateCell.dateOf, List.append_assoc,
          Nat.add_assoc, Nat.add_comm, Nat.add_left_comm]

/-- C7: a price or cost row missing its sku, numeric value, or
`valid_from` (dropped by `dropna`), or whose sku resolves to no product
(`if not pid: continue`), is dropped without error and without aborting
the batch: the import returns no exception and appends exactly the records
of the remaining valid rows, in sheet order.  The freshness hypotheses say
the generated ids are new (uuid4 does not collide); the parse hypotheses
say the surviving rows' date cells are well-formed. -/
theorem C7_invalid_rows_dropped (s : Catalog) (n m : Nat)
    (prows : List PriceRow) (crows : List CostRow)
    (hfp : ∀ p ∈ s.prices, p.id < n)
    (hfc : ∀ c ∈ s.costs, c.id < m)
    (hpp : ∀ r ∈ prows, (getProductId s.products r.skuKey).isSome = true →
      priceRowParses r = true)
    (hcc : ∀ r ∈ crows, (getProductId s.products r.skuKey).isSome = true →
      costRowParses r = true) :
    importPrices s n prows =
      (({ s with prices := s.prices ++
           pricesApplied s.products s.stores n (prows.filter priceRowKept) },
        n + (pricesApplied s.products s.stores n (prows.filter priceRowKept)).length),
       none) ∧
    importCosts s m crows =
      (({ s with costs := s.costs ++
           costsApplied s.products m (crows.filter costRowKept) },
        m + (costsApplied s.products m (crows.filter costRowKept)).length),
       none) := by
  constructor
  · exact goPrices_clean (prows.filter priceRowKept) s n hfp
      (fun r hr => hpp r (List.mem_filter.mp hr).1)
  · exact goCosts_clean (crows.filter costRowKept) s m hfc
      (fun r hr => hcc r (List.mem_filter.mp hr).1)

/-- Witness for `C7_invalid_rows_dropped`: importing `c7PriceRows` (a
missing-sku row, an unknown-sku row, one valid row) and `c7CostRows` (a
missing-value row, one valid row) into the one-product catalog applies
exactly the valid rows and reports no error. -/
theorem C7_witness :
    importPrices c1Catalog 50 c7PriceRows =
      ((⟨c1Catalog.products, [], [⟨50, 1, none, 7, 10, some 20⟩], []⟩, 51), none) ∧
    importCosts c1Catalog 70 c7CostRows =
      ((⟨c1Catalog.products, [], [], [⟨70, 1, 3, 5, none⟩]⟩, 71), none) := by
  have h := C7_invalid_rows_dropped c1Catalog 50 70 c7PriceRows c7CostRows
    (by intro p hp; simp [c1Catalog] at hp) (by intro c hc; simp [c1Catalog] at hc)
    (by decide) (by decide)
  exact ⟨h.1, h.2⟩

/-- The prices loop over a concatenation: the second part runs only if the
first part raised no exception, and an exception freezes the state reached
so far (each row's insert has already committed in its own transaction). -/
theorem goPrices_append (xs : List PriceRow) : ∀ (s : Catalog) (n : Nat) (ys : List PriceRow),
    goPrices s n (xs ++ ys) =
      (match goPrices s n xs with
       | ((s', n'), none) => goPrices s' n' ys
       | e => e) := by
  induction xs with
  | nil => intro s n ys; simp [goPrices]
  | cons r rs ih =>
    intro s n ys
    simp only [List.cons_append, goPrices]
    cases getProductId s.products r.skuKey with
    | none => exact ih s n ys
    | some pid =>
      cases parseDateCell r.valid_from with
      | error e => rfl
      | ok vf =>
        cases parseValidTo r.valid_to with
        | error e => rfl
        | ok vt => exact ih _ _ ys

/-- C9: a bulk import is not atomic.  If the rows `pre` of a `prices`
sheet import cleanly (state `s₁`, no error) and the next row `bad`
survives `dropna` and resolves to a product but raises while its
`valid_from` is parsed, then importing `pre ++ bad :: post` stops with
that exception: the final state is exactly `s₁` — every row before the
failure remains committed — and none of the rows in `post` is applied. -/
theorem C9_non_atomic (s₀ s₁ : Catalog) (n₀ n₁ : Nat)
    (pre post : List PriceRow) (bad : PriceRow)
    (hpre : importPrices s₀ n₀ pre = ((s₁, n₁), none))
    (hkept : priceRowKept bad = true)
    (hres : (getProductId s₁.products bad.skuKey).isSome = true)
    (hbad : bad.valid_from = DateCell.bad) :
    importPrices s₀ n₀ (pre ++ bad :: post) = ((s₁, n₁), some "DateParseError") := by
  rcases Option.isSome_iff_exists.mp hres with ⟨pid, hpid⟩
  rw [importPrices, List.filter_append, goPrices_append]
  rw [importPrices] at hpre
  rw [hpre]
  simp only [List.filter_cons, hkept, if_pos]
  simp only [goPrices, hpid, hbad, parseDateCell]

/-- Witness for `C9_non_atomic`: after the valid row of `c9Pre` commits
(state `c9Mid`), the garbage-date row `c9Bad` raises, and the valid row of
`c9Post` is never applied. -/
theorem C9_non_atomic_witness :
    importPrices c1Catalog 90 (c9Pre ++ c9Bad :: c9Post) =
      ((c9Mid, 91), some "DateParseError") :=
  C9_non_atomic c1Catalog c9Mid 90 91 c9Pre c9Post c9Bad (by decide) (by decide)
    (by decide) (by decide)

/-- C8: upserting a products-sheet row whose sku matches an existing
product overwrites `name`, `brand`, `category` and `status` with the
incoming (parameter-prepared) values unconditionally, while `photo_url` is
overwritten only when the incoming cell is present and non-empty after
stripping, and is preserved otherwise
(`photo_url = coalesce(excluded.photo_url, products.photo_url)`). -/
theorem C8_merge_policy (tbl : List Product) (nid : Nat) (r : ProductRow) (q : Product)
    (hq : q ∈ tbl) (hsku : q.sku = pyStrip r.sku) :
    ∃ q' ∈ pgUpsertProduct tbl (prodRecord nid r),
      q'.id = q.id ∧ q'.sku = q.sku ∧
      q'.name = pyStrip r.name ∧
      q'.brand = (if r.brand = "" then none else some r.brand) ∧
      q'.category = (if r.category = "" then none else some r.category) ∧
      q'.status = (if r.status = "" then "active" else r.status) ∧
      q'.photo_url = (match r.photo_url with
        | some u => if pyStrip u = "" then q.photo_url else some (pyStrip u)
        | none => q.photo_url) := by
  have hbeq : (q.sku == (prodRecord nid r).sku) = true := by
    simp [prodRecord, hsku]
  have hany : tbl.any (fun p => p.sku == (prodRecord nid r).sku) = true :=
    List.any_eq_true.mpr ⟨q, hq, hbeq⟩
  rw [pgUpsertProduct, if_pos hany]
  refine ⟨_, List.mem_map_of_mem _ hq, ?_, ?_, ?_, ?_, ?_, ?_, ?_⟩
  · simp [hbeq]
  · simp [hbeq]
  · simp [hbeq, hsku, prodRecord]
  · simp [hbeq, hsku, prodRecord]
  · simp [hbeq, hsku, prodRecord]
  · simp [hbeq, hsku, prodRecord]
  · simp only [hbeq, if_true]
    cases hru : r.photo_url with
    | none => simp [prodRecord, hru]
    | some u =>
      by_cases hu : pyStrip u = ""
      · simp [prodRecord, hru, hu]
      · simp [prodRecord, hru, hu]

/-- Witness for `C8_merge_policy`: upserting `c8Row` (same sku `P1`, new
name and category, empty brand and status, no photo_url column) onto
`c8Table` updates the scalar fields and preserves the existing photo. -/
theorem C8_merge_policy_witness :
    ∃ q' ∈ pgUpsertProduct c8Table (prodRecord 9 c8Row),
      q'.id = c8Old.id ∧ q'.sku = c8Old.sku ∧
      q'.name = pyStrip c8Row.name ∧
      q'.brand = (if c8Row.brand = "" then none else some c8Row.brand) ∧
      q'.category = (if c8Row.category = "" then none else some c8Row.category) ∧
      q'.status = (if c8Row.status = "" then "active" else c8Row.status) ∧
      q'.photo_url = (match c8Row.photo_url with
        | some u => if pyStrip u = "" then c8Old.photo_url else some (pyStrip u)
        | none => c8Old.photo_url) :=
  C8_merge_policy c8Table 9 c8Row c8Old (by decide) (by decide)

/-- C10 counterexample: a products-sheet row whose sku cell was blank
(`fillna("")` turns a missing sku into `""`, and no validation rejects it)
creates a catalog product whose sku is the empty string. -/
theorem C10_counterexample :
    importProducts [] 0 [c10Row] =
      ([⟨0, "", "Widget", none, none, "active", none⟩], 1) ∧
    ((importProducts [] 0 [c10Row]).1.map (fun p => p.sku)) = [""] :=
  ⟨rfl, rfl⟩

theorem pgUpsertProduct_sku_nodup (tbl : List Product) (rec : Product)
    (h : (tbl.map (fun p => p.sku)).Nodup) :
    ((pgUpsertProduct tbl rec).map (fun p => p.sku)).Nodup := by
  by_cases hany : tbl.any (fun p => p.sku == rec.sku) = true
  · rw [pgUpsertProduct, if_pos hany, List.map_map]
    have hf : ((fun p : Product => p.sku) ∘
        (fun p : Product =>
          if p.sku == rec.sku then
            { p with
              name := rec.name
              brand := rec.brand
              category := rec.category
              status := rec.status
              photo_url :=
                match rec.photo_url with
                | some u => some u
                | none => p.photo_url }
          else p)) = fun p : Product => p.sku := by
      funext p
      by_cases hp : (p.sku == rec.sku) = true <;> simp [Function.comp, hp]
    rw [hf]
    exact h
  · rw [pgUpsertProduct, if_neg hany, List.map_append]
    have hnotin : rec.sku ∉ tbl.map (fun p => p.sku) := by
      intro hmem
      rcases List.mem_map.mp hmem with ⟨p, hp, hps⟩
      exact hany (List.any_eq_true.mpr ⟨p, hp, by simp [hps]⟩)
    exact h.append (List.nodup_singleton _)
      (List.disjoint_singleton.mpr (by simpa using hnotin))

/-- C10 amended: after any sequence of product imports the skus in the
catalog remain pairwise distinct and are never null (the model carries a
total `sku : String`); non-emptiness, however, does not hold — see the
counterexample — since a blank sku cell becomes the (legal) empty-string
sku. -/
theorem C10_sku_unique (rows : List ProductRow) : ∀ (tbl : List Product) (n : Nat),
    (tbl.map (fun p => p.sku)).Nodup →
    (((importProducts tbl n rows).1.map (fun p => p.sku)).Nodup) := by
  induction rows with
  | nil => intro tbl n h; exact h
  | cons r rs ih =>
    intro tbl n h
    exact ih _ (n + 1) (pgUpsertProduct_sku_nodup tbl (prodRecord n r) h)

/-- Witness for `C10_sku_unique`: importing the blank-sku row and a normal
row into the empty catalog yields a table with pairwise-distinct skus. -/
theorem C10_sku_unique_witness :
    (((importProducts [] 0 [c10Row, ⟨"P7", "Gadget", "", "", "", none⟩]).1.map
      (fun p => p.sku)).Nodup) :=
  C10_sku_unique [c10Row, ⟨"P7", "Gadget", "", "", "", none⟩] [] 0 (by decide)

/-- C5 counterexample: the listing path holds no cache.  A first listing
over `[pAlpha]` returns `[pAlpha]`; after a product is added by a write
outside the Bulk Reconciler, a second identical listing only 10 seconds
later returns `[pAlpha, pBeta]`.  Under the claimed 60-second cache (no
reconciler mutation occurred, so no invalidation either) the second call
would still be served the cached `[pAlpha]` — the code's behaviour differs
from the claimed cache's at this input, because `fetch_all` re-executes
the query on every call. -/
theorem C5_counterexample :
    listing [pAlpha] "" [] = [pAlpha] ∧
    listing [pAlpha, pBeta] "" [] = [pAlpha, pBeta] ∧
    (specCacheServe (some (0, listing [pAlpha] "" [])) 10
      (listing [pAlpha, pBeta] "" [])).1 = [pAlpha] ∧
    listing [pAlpha, pBeta] "" [] ≠
      (specCacheServe (some (0, listing [pAlpha] "" [])) 10
        (listing [pAlpha, pBeta] "" [])).1 := by
  refine ⟨?_, ?_, ?_, ?_⟩ <;> decide

/-- C5 amended: listing queries are executed directly against the
database on every call — app.py keeps no cache and no clock — so the
result always reflects the current database state: any just-inserted
product matching the filter appears in the very next listing (as long as
the 500-row limit is not hit). -/
theorem C5_no_cache (db : List Product) (p : Product) (q : String) (cats : List String)
    (hlen : (db.filter (matchesWhere q cats)).length < 500)
    (hp : matchesWhere q cats p = true) :
    p ∈ listing (db ++ [p]) q cats := by
  have hfa : (db ++ [p]).filter (matchesWhere q cats) =
      db.filter (matchesWhere q cats) ++ [p] := by
    rw [List.filter_append]
    simp [hp]
  rw [listing, hfa]
  have hperm := List.perm_insertionSort
    (fun a b => strLeAux a.name.data b.name.data = true)
    (db.filter (matchesWhere q cats) ++ [p])
  have hlen2 : (List.insertionSort
      (fun a b => strLeAux a.name.data b.name.data = true)
      (db.filter (matchesWhere q cats) ++ [p])).length ≤ 500 := by
    rw [hperm.length_eq, List.length_append, List.length_singleton]
    omega
  rw [List.take_of_length_le hlen2]
  exact hperm.mem_iff.mpr (List.mem_append_right _ (List.mem_singleton_self _))

/-- Witness for `C5_no_cache`: `pBeta`, inserted after `pAlpha`, appears
in the immediately following unfiltered listing. -/
theorem C5_no_cache_witness : pBeta ∈ listing ([pAlpha] ++ [pBeta]) "" [] :=
  C5_no_cache [pAlpha] pBeta "" [] (by decide) (by decide)
